import Mathlib

set_option maxRecDepth 8192

/-!
Shallow embedding of the `hide_my_email` library (src/src/lib.rs): an iCloud
Hide-My-Email client consisting of a cookie parser, a session client with a
`validate` handshake, and a manager exposing `generate`, `claim`, `list` and
`generate_and_claim`.

Modelling conventions:
* Rust strings are Lean `String`s; the byte-level pattern operations
  (`str::split`, `str::split_once`) are re-implemented by structural recursion
  over the character list so that every definition evaluates in the kernel.
* The HTTP transport is an external collaborator: each operation takes the
  transport's answer as an explicit input (network failure, or a response with
  status, raw body text, and the optional result of JSON-decoding the text).
  For `claim`, whose request carries a JSON payload, the transport is a
  function from the payload to the answer, so that the payload actually sent
  is observable.
* `&mut self` / `&self` receivers become explicit state passing: every
  operation returns its result together with the (possibly updated) state.
* `unreachable!()` is modelled by a distinguished `panicked` outcome, distinct
  from every returned error.
* `anyhow` errors are either opaque propagated errors (transport send and
  body-read failures, JSON decode failures) or `format_err!` messages, which
  are modelled by the exact message string.
-/

namespace HideMyEmail

/-- Model of Rust `Cookie { name: String, value: String }` (lib.rs lines 181-185). -/
structure Cookie where
  name : String
  value : String
deriving DecidableEq, Repr

/-- Model of Rust `ParseCookieError(&str)` (lib.rs line 188): carries the offending segment. -/
structure ParseCookieError where
  segment : String
deriving DecidableEq, Repr

/-- Model of Rust `str::split("; ")`: splits a character list at every
occurrence of the two-character separator `';'`-space, leftmost first,
non-overlapping; the empty input yields one empty segment. -/
def splitOnSemiSp : List Char → List (List Char)
  | [] => [[]]
  | [x] => [[x]]
  | x :: y :: xs =>
    if x == ';' && y == ' ' then [] :: splitOnSemiSp xs
    else match splitOnSemiSp (y :: xs) with
      | [] => [[x]]
      | g :: gs => (x :: g) :: gs

/-- Splits a cookie header string on the `"; "` separator, as
`s.split("; ")` does in `Cookie::from_str` (lib.rs line 194). -/
def splitSemiSp (s : String) : List String :=
  (splitOnSemiSp s.data).map String.mk

/-- Model of Rust `str::split_once("=")` on a character list: splits at the
first `'='`, returning the parts before and after it, or `none` when no `'='`
occurs. -/
def splitOnceEqChars : List Char → Option (List Char × List Char)
  | [] => none
  | x :: xs =>
    if x == '=' then some ([], xs)
    else match splitOnceEqChars xs with
      | some (k, v) => some (x :: k, v)
      | none => none

/-- Model of Rust `str::split_once("=")` on strings (lib.rs line 196). -/
def splitOnceEq (s : String) : Option (String × String) :=
  match splitOnceEqChars s.data with
  | some (k, v) => some (String.mk k, String.mk v)
  | none => none

/-- The loop body of `Cookie::from_str` (lib.rs lines 193-206): walks the
segments in order, turning each `k=v` segment into a cookie; the first segment
with no `'='` aborts the whole parse with that segment as the error. -/
def parseSegments : List String → Except ParseCookieError (List Cookie)
  | [] => .ok []
  | seg :: rest =>
    match splitOnceEq seg with
    | some (k, v) =>
      match parseSegments rest with
      | .ok cs => .ok ({ name := k, value := v } :: cs)
      | .error e => .error e
    | none => .error { segment := seg }

/-- Model of Rust `Cookie::from_str` (lib.rs lines 192-207). -/
def Cookie.from_str (s : String) : Except ParseCookieError (List Cookie) :=
  parseSegments (splitSemiSp s)

/-- Model of Rust `Service { url: Option<String>, status: Option<String> }`
(lib.rs lines 210-213). -/
structure Service where
  url : Option String
  status : Option String
deriving DecidableEq, Repr

/-- Model of Rust `ICloudWSValidateResponse { webservices: HashMap<String, Service> }`
(lib.rs lines 215-217); the map is modelled as an association list with unique
keys, looked up with `List.lookup`. -/
structure ICloudWSValidateResponse where
  webservices : List (String × Service)
deriving DecidableEq, Repr

/-- Model of `ICloudClient`'s observable state (lib.rs lines 6-10): the
discovered service directory and the cookie set. The `reqwest::Client`
transport field is the external collaborator and is not part of the state. -/
structure ICloudClient where
  services : List (String × Service)
  cookies : List Cookie
deriving DecidableEq, Repr

/-- Model of `ICloudClient::new` (lib.rs lines 16-36): starts with an empty
service directory and the given cookies. -/
def ICloudClient.new (cookies : List Cookie) : ICloudClient :=
  { services := [], cookies := cookies }

/-- Errors an operation can return: `sendError` models a transport error
propagated by `?` from `send()` or `text()`; `decodeError` models a
`serde_json` decode failure propagated by `?`; `message s` models a
`format_err!` error with message `s`. -/
inductive Error where
  | sendError
  | decodeError
  | message (s : String)
deriving DecidableEq, Repr

/-- Outcome of a manager operation: a value, a returned error, or a panic
(`unreachable!()`). -/
inductive Outcome (α : Type) where
  | ok (a : α)
  | err (e : Error)
  | panicked
deriving DecidableEq, Repr

/-- Model of `reqwest::StatusCode::is_client_error` (4xx). -/
def isClientError (status : Nat) : Bool :=
  400 ≤ status && status ≤ 499

/-- Model of `reqwest::StatusCode::is_server_error` (5xx). -/
def isServerError (status : Nat) : Bool :=
  500 ≤ status && status ≤ 599

/-- The `format_err!("Failed to send request | Status: {} | Response: {}", status, text)`
message used on every 4xx/5xx response (lib.rs lines 54, 109, 143, 168). -/
def statusErrorMsg (status : Nat) (text : String) : String :=
  "Failed to send request | Status: " ++ toString status ++ " | Response: " ++ text

/-- The transport's answer to the `validate` POST: either a network failure
(propagated from `send()` or `text()`), or a response carrying the HTTP
status, the captured response cookies, the raw body text, and the result of
JSON-decoding the text (`none` models a decode failure). -/
inductive ValidateInput where
  | sendFail
  | resp (status : Nat) (respCookies : List Cookie) (text : String)
      (decoded : Option ICloudWSValidateResponse)
deriving DecidableEq, Repr

/-- The cookie reconciliation performed on `validate` success (lib.rs lines
74-76): keep each existing cookie only if no response cookie has the same
name, then append all response cookies. -/
def mergeCookies (existing incoming : List Cookie) : List Cookie :=
  existing.filter (fun c => (incoming.find? (fun r => c.name == r.name)).isNone) ++ incoming

/-- Model of `ICloudClient::validate` (lib.rs lines 42-79), with the transport
answer as an explicit input and `&mut self` as explicit state passing. Returns
the `anyhow::Result<()>` together with the updated client state. -/
def ICloudClient.validate (c : ICloudClient) (input : ValidateInput) :
    Except Error Unit × ICloudClient :=
  match input with
  | .sendFail => (.error .sendError, c)
  | .resp status respCookies text decoded =>
    if isClientError status || isServerError status then
      (.error (.message (statusErrorMsg status text)), c)
    else
      match decoded with
      | none => (.error .decodeError, c)
      | some body =>
        match body.webservices.lookup "premiummailsettings" with
        | some t =>
          match t.status with
          | some s =>
            if s ≠ "active" then
              (.error (.message "Hide my email is inactive/disabled"), c)
            else
              (.ok (), { c with
                services := body.webservices
                cookies := mergeCookies c.cookies respCookies })
          | none => (.error (.message "Hide my email missing status"), c)
        | none => (.error (.message "Missing Hide my email service"), c)

/-- Model of `HideMyEmailManager` (lib.rs lines 11-14): the owned client and
the cookie header snapshot serialized at construction time. -/
structure HideMyEmailManager where
  icloud : ICloudClient
  cookie : String
deriving DecidableEq, Repr

/-- Serialization of a cookie set into a header: `name=value` pairs joined
with `"; "` (lib.rs lines 22 and 83). -/
def serializeCookies (cookies : List Cookie) : String :=
  String.intercalate "; " (cookies.map (fun c => c.name ++ "=" ++ c.value))

/-- Model of `HideMyEmailManager::from` (lib.rs lines 82-89); named
`fromClient` because `from` is a Lean keyword. -/
def HideMyEmailManager.fromClient (icloud : ICloudClient) : HideMyEmailManager :=
  { icloud := icloud, cookie := serializeCookies icloud.cookies }

/-- Model of `HideMyEmailManager::base_url` (lib.rs lines 91-96). -/
def HideMyEmailManager.base_url (m : HideMyEmailManager) : Option String :=
  match m.icloud.services.lookup "premiummailsettings" with
  | some s => s.url
  | none => none

/-- Model of `HMEReserveResult` (lib.rs lines 240-255). -/
structure HMEReserveResult where
  origin : String
  anonymous_id : String
  domain : String
  hme : String
  label : String
  note : String
  create_timestamp : Nat
  is_active : Bool
  recipient_mail_id : String
deriving DecidableEq, Repr

/-- Model of the untagged `HMEResultType` (lib.rs lines 230-235): a generate
response decodes `result.hme` as a plain string, a reserve response as a full
record. -/
inductive HMEResultType where
  | Generate (s : String)
  | Reserve (r : HMEReserveResult)
deriving DecidableEq, Repr

/-- Model of `HMEResult { hme: HMEResultType }` (lib.rs lines 236-239). -/
structure HMEResult where
  hme : HMEResultType
deriving DecidableEq, Repr

/-- Model of `HMEResponse` (lib.rs lines 218-223). -/
structure HMEResponse where
  success : Bool
  timestamp : Nat
  result : HMEResult
deriving DecidableEq, Repr

/-- Model of `HMEListEmails` (lib.rs lines 265-282). -/
structure HMEListEmails where
  origin : String
  anonymous_id : String
  domain : String
  forward_to_email : String
  hme : String
  label : String
  note : String
  create_timestamp : Nat
  is_active : Bool
  recipient_mail_id : String
deriving DecidableEq, Repr

/-- Model of `HMEListResult` (lib.rs lines 256-264). -/
structure HMEListResult where
  forward_to_emails : List String
  hme_emails : List HMEListEmails
  selected_forward_to : String
deriving DecidableEq, Repr

/-- Model of `HMEListResponse` (lib.rs lines 224-229). -/
structure HMEListResponse where
  success : Bool
  timestamp : Nat
  result : HMEListResult
deriving DecidableEq, Repr

/-- Model of `HMEClaimPayload` (lib.rs lines 283-288): the JSON body sent by
`claim`. -/
structure HMEClaimPayload where
  hme : String
  label : String
  note : String
deriving DecidableEq, Repr

/-- The transport's answer to a manager request: either a network failure, or
a response with HTTP status, raw body text, and the optional result of
JSON-decoding the text into `β`. -/
inductive HttpInput (β : Type) where
  | sendFail
  | resp (status : Nat) (text : String) (decoded : Option β)
deriving DecidableEq, Repr

/-- Model of `HideMyEmailManager::generate` (lib.rs lines 98-125): resolve the
base URL, send, check status, decode, and extract the plain-string `hme`;
the full-record shape hits `unreachable!()`. -/
def HideMyEmailManager.generate (m : HideMyEmailManager)
    (input : HttpInput HMEResponse) : Outcome String × HideMyEmailManager :=
  match m.base_url with
  | none => (.err (.message "Missing Base URL"), m)
  | some _ =>
    match input with
    | .sendFail => (.err .sendError, m)
    | .resp status text decoded =>
      if isServerError status || isClientError status then
        (.err (.message (statusErrorMsg status text)), m)
      else
        match decoded with
        | none => (.err .decodeError, m)
        | some body =>
          match body.result.hme with
          | .Generate g => (.ok g, m)
          | .Reserve _ => (.panicked, m)

/-- The `format_err!("Hide my email for {} is inactive/invalid, Active: {}, HME: {}", ...)`
message of `claim` (lib.rs line 152); Rust's `bool` Display is `true`/`false`. -/
def claimErrorMsg (email : String) (active : Bool) (hme : String) : String :=
  "Hide my email for " ++ email ++ " is inactive/invalid, Active: " ++
    (if active then "true" else "false") ++ ", HME: " ++ hme

/-- Model of `HideMyEmailManager::claim` (lib.rs lines 126-157): resolve the
base URL, POST the `{hme, label, note}` payload (the transport is a function
of the payload), check status, decode, and accept the record only when it is
active and echoes the requested address; the plain-string shape hits
`unreachable!()`. -/
def HideMyEmailManager.claim (m : HideMyEmailManager)
    (email label note : String)
    (server : HMEClaimPayload → HttpInput HMEResponse) :
    Outcome HMEReserveResult × HideMyEmailManager :=
  match m.base_url with
  | none => (.err (.message "Missing Base URL"), m)
  | some _ =>
    match server { hme := email, label := label, note := note } with
    | .sendFail => (.err .sendError, m)
    | .resp status text decoded =>
      if isServerError status || isClientError status then
        (.err (.message (statusErrorMsg status text)), m)
      else
        match decoded with
        | none => (.err .decodeError, m)
        | some body =>
          match body.result.hme with
          | .Reserve g =>
            if g.is_active && g.hme == email then (.ok g, m)
            else (.err (.message (claimErrorMsg email g.is_active g.hme)), m)
          | .Generate _ => (.panicked, m)

/-- Model of `HideMyEmailManager::list` (lib.rs lines 158-173). -/
def HideMyEmailManager.list (m : HideMyEmailManager)
    (input : HttpInput HMEListResponse) : Outcome HMEListResult × HideMyEmailManager :=
  match m.base_url with
  | none => (.err (.message "Missing Base URL"), m)
  | some _ =>
    match input with
    | .sendFail => (.err .sendError, m)
    | .resp status text decoded =>
      if isServerError status || isClientError status then
        (.err (.message (statusErrorMsg status text)), m)
      else
        match decoded with
        | none => (.err .decodeError, m)
        | some body => (.ok body.result, m)

/-- Model of `HideMyEmailManager::generate_and_claim` (lib.rs lines 174-178):
`generate`, then `claim` with the generated address and the given label and
note; both `?`s propagate errors (and a panic aborts). On success the
generated address is returned. -/
def HideMyEmailManager.generate_and_claim (m : HideMyEmailManager)
    (label note : String) (genInput : HttpInput HMEResponse)
    (server : HMEClaimPayload → HttpInput HMEResponse) :
    Outcome String × HideMyEmailManager :=
  match m.generate genInput with
  | (.ok hme, m1) =>
    match m1.claim hme label note server with
    | (.ok _, m2) => (.ok hme, m2)
    | (.err e, m2) => (.err e, m2)
    | (.panicked, m2) => (.panicked, m2)
  | (.err e, m1) => (.err e, m1)
  | (.panicked, m1) => (.panicked, m1)

/-- The cookie a conforming segment is turned into: name/value split at the
first `'='`, as the loop of `Cookie::from_str` produces it. -/
def segCookie (seg : String) : Cookie :=
  match splitOnceEq seg with
  | some (k, v) => { name := k, value := v }
  | none => { name := "", value := "" }

/-! Sample fixtures used by the witness theorems. -/

/-- Sample service entry with an active status. -/
def sampleService : Service :=
  { url := some "https://p42-maildomainws.icloud.com:443", status := some "active" }

/-- Sample decoded validation body holding the forwarding-email service. -/
def sampleBody : ICloudWSValidateResponse :=
  { webservices := [("premiummailsettings", sampleService)] }

/-- Sample client before validation. -/
def sampleClient : ICloudClient :=
  { services := [], cookies := [{ name := "a", value := "1" }, { name := "b", value := "1" }] }

/-- Sample manager whose service directory resolves a base URL. -/
def sampleManager : HideMyEmailManager :=
  HideMyEmailManager.fromClient
    { services := [("premiummailsettings", sampleService)], cookies := [] }

/-- Sample manager whose service directory lacks the forwarding-email key. -/
def bareManager : HideMyEmailManager :=
  HideMyEmailManager.fromClient { services := [], cookies := [] }

/-- Sample reserve record echoing the address `x@icloud.com`, active. -/
def sampleReserve : HMEReserveResult :=
  { origin := "ON_DEMAND", anonymous_id := "anon-1", domain := "icloud.com"
    hme := "x@icloud.com", label := "L", note := "N", create_timestamp := 7
    is_active := true, recipient_mail_id := "rm-1" }

/-- Sample decoded generate body carrying the plain-string address. -/
def genOkBody : HMEResponse :=
  { success := true, timestamp := 1
    result := { hme := HMEResultType.Generate "x@icloud.com" } }

/-- Sample transport answer for a successful generate call. -/
def genOkInput : HttpInput HMEResponse :=
  HttpInput.resp 200 "" (some genOkBody)

/-- Sample transport that answers every claim payload with the active record
for `x@icloud.com`. -/
def claimOkServer : HMEClaimPayload → HttpInput HMEResponse := fun _ =>
  HttpInput.resp 200 ""
    (some { success := true, timestamp := 1
            result := { hme := HMEResultType.Reserve sampleReserve } })

/-- Sample transport that answers every claim payload with HTTP 500 and body
`oops`. -/
def err500Server : HMEClaimPayload → HttpInput HMEResponse := fun _ =>
  HttpInput.resp 500 "oops" none

/-! Helper lemmas about the cookie-segment splitter. -/

/-- A successful first-equals split decomposes the input: the key, one `'='`,
then the value, and the key itself contains no `'='`. -/
theorem splitOnceEqChars_some (cs : List Char) (k v : List Char)
    (h : splitOnceEqChars cs = some (k, v)) :
    cs = k ++ '=' :: v ∧ '=' ∉ k := by
  induction cs generalizing k v with
  | nil => simp [splitOnceEqChars] at h
  | cons x xs ih =>
    simp only [splitOnceEqChars] at h
    by_cases hx : x == '='
    · rw [if_pos hx] at h
      cases h
      have hxeq : x = '=' := by simpa using hx
      subst hxeq
      exact ⟨rfl, by simp⟩
    · rw [if_neg hx] at h
      cases hxs : splitOnceEqChars xs with
      | none => rw [hxs] at h; cases h
      | some kv =>
        obtain ⟨k1, v1⟩ := kv
        rw [hxs] at h
        simp only [Option.some.injEq, Prod.mk.injEq] at h
        obtain ⟨hk, hv⟩ := h
        subst hk
        subst hv
        obtain ⟨h1, h2⟩ := ih k1 v1 hxs
        have hxne : x ≠ '=' := by simpa using hx
        constructor
        · rw [List.cons_append, h1]
        · simp only [List.mem_cons, not_or]
          exact ⟨fun hc => hxne hc.symm, h2⟩


/-- The first-equals split fails exactly when the input has no `'='`. -/
theorem splitOnceEqChars_none (cs : List Char) :
    splitOnceEqChars cs = none ↔ '=' ∉ cs := by
  induction cs with
  | nil => simp [splitOnceEqChars]
  | cons x xs ih =>
    simp only [splitOnceEqChars, List.mem_cons]
    by_cases hx : x == '='
    · have hxeq : x = '=' := by simpa using hx
      subst hxeq
      rw [if_pos (by simp)]
      simp
    · have hxne : x ≠ '=' := by simpa using hx
      have hne : '=' ≠ x := fun hc => hxne hc.symm
      rw [if_neg hx]
      cases hxs : splitOnceEqChars xs with
      | none =>
        have hmem : '=' ∉ xs := ih.mp hxs
        simp [hmem, hne]
      | some kv =>
        obtain ⟨k1, v1⟩ := kv
        have hmem : '=' ∈ xs := by
          by_contra hn
          have hcontra := ih.mpr hn
          rw [hcontra] at hxs
          cases hxs
        simp [hmem]

/-- String version of `splitOnceEqChars_some`. -/
theorem splitOnceEq_some (seg k v : String) (h : splitOnceEq seg = some (k, v)) :
    seg.data = k.data ++ '=' :: v.data ∧ '=' ∉ k.data := by
  unfold splitOnceEq at h
  cases hc : splitOnceEqChars seg.data with
  | none => rw [hc] at h; cases h
  | some kv =>
    obtain ⟨k1, v1⟩ := kv
    rw [hc] at h
    cases h
    simpa using splitOnceEqChars_some seg.data k1 v1 hc

/-- String version of `splitOnceEqChars_none`. -/
theorem splitOnceEq_isNone (seg : String) :
    (splitOnceEq seg).isNone ↔ '=' ∉ seg.data := by
  unfold splitOnceEq
  cases hc : splitOnceEqChars seg.data with
  | none => simpa using (splitOnceEqChars_none seg.data).mp hc
  | some kv =>
    obtain ⟨k1, v1⟩ := kv
    have hmem : '=' ∈ seg.data := by
      by_contra hn
      have hcontra := (splitOnceEqChars_none seg.data).mpr hn
      rw [hcontra] at hc
      cases hc
    simp [hmem]

/-- The segment loop fails with the first segment that has no `'='`. -/
theorem parseSegments_error (l : List String) (seg : String)
    (h : l.find? (fun t => (splitOnceEq t).isNone) = some seg) :
    parseSegments l = .error { segment := seg } := by
  induction l with
  | nil => simp [List.find?] at h
  | cons a rest ih =>
    cases hc : splitOnceEq a with
    | none =>
      simp only [List.find?, hc, Option.isNone_none] at h
      cases h
      simp [parseSegments, hc]
    | some kv =>
      obtain ⟨k, v⟩ := kv
      simp only [List.find?, hc, Option.isNone_some] at h
      simp [parseSegments, hc, ih h]

/-- The segment loop succeeds when every segment has an `'='`, producing the
first-equals split of each segment in input order. -/
theorem parseSegments_ok (l : List String) (h : ∀ seg ∈ l, '=' ∈ seg.data) :
    parseSegments l = .ok (l.map segCookie) := by
  induction l with
  | nil => simp [parseSegments]
  | cons a rest ih =>
    have ha : '=' ∈ a.data := h a (by simp)
    have hkv : ∃ kv, splitOnceEq a = some kv := by
      cases hc : splitOnceEq a with
      | none =>
        exact absurd ((splitOnceEq_isNone a).mp (by simp [hc])) (by simpa using ha)
      | some kv => exact ⟨kv, rfl⟩
    obtain ⟨⟨k, v⟩, hkv⟩ := hkv
    have hrest := ih (fun s hs => h s (by simp [hs]))
    simp [parseSegments, hkv, hrest, segCookie]

/-! Frame lemmas: every manager operation returns its state unchanged,
mirroring the `&self` receivers in the source. -/

/-- The state returned by `generate` is the input state. -/
theorem generate_snd (m : HideMyEmailManager) (i : HttpInput HMEResponse) :
    (m.generate i).2 = m := by
  unfold HideMyEmailManager.generate
  cases m.base_url with
  | none => rfl
  | some b =>
    cases i with
    | sendFail => rfl
    | resp status text decoded =>
      by_cases hs : (isServerError status || isClientError status) = true
      · simp [hs]
      · cases decoded with
        | none => simp [hs]
        | some body => cases hb : body.result.hme <;> simp [hs, hb]

/-- The state returned by `claim` is the input state. -/
theorem claim_snd (m : HideMyEmailManager) (email label note : String)
    (server : HMEClaimPayload → HttpInput HMEResponse) :
    (m.claim email label note server).2 = m := by
  unfold HideMyEmailManager.claim
  cases m.base_url with
  | none => rfl
  | some b =>
    cases server { hme := email, label := label, note := note } with
    | sendFail => rfl
    | resp status text decoded =>
      by_cases hs : (isServerError status || isClientError status) = true
      · simp [hs]
      · cases decoded with
        | none => simp [hs]
        | some body =>
          cases hb : body.result.hme with
          | Generate g => simp [hs, hb]
          | Reserve g =>
            by_cases hg : (g.is_active && g.hme == email) = true <;> simp [hs, hb, hg]

/-- The state returned by `list` is the input state. -/
theorem list_snd (m : HideMyEmailManager) (i : HttpInput HMEListResponse) :
    (m.list i).2 = m := by
  unfold HideMyEmailManager.list
  cases m.base_url with
  | none => rfl
  | some b =>
    cases i with
    | sendFail => rfl
    | resp status text decoded =>
      by_cases hs : (isServerError status || isClientError status) = true
      · simp [hs]
      · cases decoded with
        | none => simp [hs]
        | some body => simp [hs]

/-- The state returned by `generate_and_claim` is the input state. -/
theorem generate_and_claim_snd (m : HideMyEmailManager) (label note : String)
    (gi : HttpInput HMEResponse) (server : HMEClaimPayload → HttpInput HMEResponse) :
    (m.generate_and_claim label note gi server).2 = m := by
  unfold HideMyEmailManager.generate_and_claim
  have hg := generate_snd m gi
  rcases hgen : m.generate gi with ⟨r, m1⟩
  rw [hgen] at hg
  simp only at hg
  have hg' := hg.symm
  subst hg'
  cases r with
  | ok a =>
    have hc := claim_snd m a label note server
    rcases hcl : m.claim a label note server with ⟨rc, m2⟩
    rw [hcl] at hc
    simp only at hc
    have hc' := hc.symm
    subst hc'
    cases rc <;> simp [hcl]
  | err e => simp
  | panicked => simp

/-- C4: `Cookie::from_str` splits its input on the separator `"; "`; when
every segment contains an `'='` it returns the cookies in input order, each
segment split into name/value at its first `'='` (so values may contain
further `'='`, as the split key contains no `'='` and key, `'='`, value
reassemble the segment); when some segment contains no `'='` the whole parse
fails with a `ParseCookieError` carrying exactly the first such segment and
no partial result; in particular parsing the empty string fails naming the
empty segment. -/
theorem from_str_spec (s : String) :
    (∀ seg, (splitSemiSp s).find? (fun t => (splitOnceEq t).isNone) = some seg →
        Cookie.from_str s = .error { segment := seg })
  ∧ ((∀ seg ∈ splitSemiSp s, '=' ∈ seg.data) →
        Cookie.from_str s = .ok ((splitSemiSp s).map segCookie))
  ∧ (∀ seg k v, splitOnceEq seg = some (k, v) →
        seg.data = k.data ++ '=' :: v.data ∧ '=' ∉ k.data)
  ∧ (∀ seg, (splitOnceEq seg).isNone ↔ '=' ∉ seg.data)
  ∧ Cookie.from_str "" = .error { segment := "" }
  ∧ Cookie.from_str "task=4343; session17373; client=abs31"
      = .error { segment := "session17373" } := by
  refine ⟨?_, ?_, splitOnceEq_some, splitOnceEq_isNone, ?_, ?_⟩
  · intro seg h
    exact parseSegments_error _ seg h
  · intro h
    exact parseSegments_ok _ h
  · rfl
  · rfl

/-- Witness for C4: the parse of the header from the repository's own test
fails naming exactly its first conforming-free segment. -/
theorem from_str_spec_witness :
    ((splitSemiSp "task=4343; session17373; client=abs31").find?
        (fun t => (splitOnceEq t).isNone) = some "session17373")
  ∧ Cookie.from_str "task=4343; session17373; client=abs31"
      = .error { segment := "session17373" } :=
  ⟨by decide,
   (from_str_spec "task=4343; session17373; client=abs31").1 "session17373" (by decide)⟩

/-- C3: the cookie merge performed during `validate` equals the existing
sequence with every cookie whose name occurs among the incoming response
cookies removed (surviving cookies keeping their relative order), followed by
all incoming cookies appended in their order; in particular merging incoming
`{a,2}` into existing `[{a,1},{b,1}]` yields `[{b,1},{a,2}]`. -/
theorem validate_merge_spec (c : ICloudClient) (status : Nat) (rc : List Cookie)
    (text : String) (body : ICloudWSValidateResponse) (svc : Service)
    (hok : (isClientError status || isServerError status) = false)
    (hsvc : body.webservices.lookup "premiummailsettings" = some svc)
    (hactive : svc.status = some "active") :
    ((c.validate (ValidateInput.resp status rc text (some body))).2.cookies
      = c.cookies.filter (fun ck => decide (∀ r ∈ rc, r.name ≠ ck.name)) ++ rc)
  ∧ mergeCookies [{ name := "a", value := "1" }, { name := "b", value := "1" }]
      [{ name := "a", value := "2" }]
      = [{ name := "b", value := "1" }, { name := "a", value := "2" }] := by
  constructor
  · have hval : (c.validate (ValidateInput.resp status rc text (some body))).2.cookies
        = mergeCookies c.cookies rc := by
      simp [ICloudClient.validate, hok, hsvc, hactive]
    rw [hval]
    unfold mergeCookies
    congr 1
    apply List.filter_congr
    intro ck _
    cases hfind : rc.find? (fun r => ck.name == r.name) with
    | none =>
      have hall : ∀ r ∈ rc, r.name ≠ ck.name := by
        intro r hr
        have hne : ¬(ck.name == r.name) = true := List.find?_eq_none.mp hfind r hr
        have : ck.name ≠ r.name := by simpa using hne
        exact fun hc => this hc.symm
      simp only [Option.isNone_none]
      exact (decide_eq_true hall).symm
    | some r0 =>
      have hmem := List.find?_some hfind
      have hr0 : r0 ∈ rc := List.mem_of_find?_eq_some hfind
      have hnot : ¬(∀ r ∈ rc, r.name ≠ ck.name) := by
        intro hall
        have heq : ck.name = r0.name := by simpa using hmem
        exact hall r0 hr0 heq.symm
      simp only [Option.isNone_some]
      exact (decide_eq_false hnot).symm
  · rfl

/-- Witness for C3: a concrete successful validation merges `{a,2}` over
`[{a,1},{b,1}]` into `[{b,1},{a,2}]`. -/
theorem validate_merge_spec_witness :
    ((sampleClient.validate (ValidateInput.resp 200
        ([{ name := "a", value := "2" }] : List Cookie) "" (some sampleBody))).2.cookies
      = sampleClient.cookies.filter
          (fun ck => decide (∀ r ∈ ([{ name := "a", value := "2" }] : List Cookie),
            r.name ≠ ck.name))
        ++ ([{ name := "a", value := "2" }] : List Cookie))
  ∧ mergeCookies [{ name := "a", value := "1" }, { name := "b", value := "1" }]
      [{ name := "a", value := "2" }]
      = [{ name := "b", value := "1" }, { name := "a", value := "2" }] :=
  validate_merge_spec sampleClient 200 [{ name := "a", value := "2" }] ""
    sampleBody sampleService (by decide) (by decide) (by decide)

/-- C10: `validate` is atomic on failure: whenever it returns an error — a
transport failure, a 4xx/5xx status, a decode failure, a missing service key,
a missing status field, or a non-active status — the client state (service
directory and cookie set) is returned unchanged. -/
theorem validate_atomic_on_failure (c : ICloudClient) (input : ValidateInput)
    (e : Error) (h : (c.validate input).1 = Except.error e) :
    (c.validate input).2 = c := by
  cases input with
  | sendFail => rfl
  | resp status rc text decoded =>
    by_cases hs : (isClientError status || isServerError status) = true
    · simp [ICloudClient.validate, hs]
    · cases decoded with
      | none => simp [ICloudClient.validate, hs]
      | some body =>
        cases hl : body.webservices.lookup "premiummailsettings" with
        | none => simp [ICloudClient.validate, hs, hl]
        | some svc =>
          cases hst : svc.status with
          | none => simp [ICloudClient.validate, hs, hl, hst]
          | some s =>
            by_cases hsa : s = "active"
            · subst hsa
              exfalso
              simp [ICloudClient.validate, hs, hl, hst] at h
            · simp [ICloudClient.validate, hs, hl, hst, hsa]

/-- Witness for C10: a failed send leaves the sample client unchanged. -/
theorem validate_atomic_on_failure_witness :
    ((sampleClient.validate ValidateInput.sendFail).1 = Except.error Error.sendError)
  ∧ (sampleClient.validate ValidateInput.sendFail).2 = sampleClient :=
  ⟨rfl, validate_atomic_on_failure sampleClient ValidateInput.sendFail Error.sendError rfl⟩

/-- C9: the manager's cookie header is computed at construction as the
`name=value` pairs of the session's cookie set joined with `"; "`, and no
manager operation (`generate`, `claim`, `list`, `generate_and_claim`)
changes the manager state — in particular neither its cached cookie header
nor the owned session's cookie set or service directory. -/
theorem manager_frame_spec (icloud : ICloudClient) (m : HideMyEmailManager)
    (gi gi2 : HttpInput HMEResponse)
    (server server2 : HMEClaimPayload → HttpInput HMEResponse)
    (li : HttpInput HMEListResponse) (email label note label2 note2 : String) :
    ((HideMyEmailManager.fromClient icloud).cookie
      = String.intercalate "; " (icloud.cookies.map (fun c => c.name ++ "=" ++ c.value)))
  ∧ (m.generate gi).2 = m
  ∧ (m.claim email label note server).2 = m
  ∧ (m.list li).2 = m
  ∧ (m.generate_and_claim label2 note2 gi2 server2).2 = m :=
  ⟨rfl, generate_snd m gi, claim_snd m email label note server, list_snd m li,
   generate_and_claim_snd m label2 note2 gi2 server2⟩

/-- C1: on every decoded validation response with a non-error status,
`validate` fails with the `Missing Hide my email service` domain error when
the directory lacks the `premiummailsettings` key, with the distinct
`Hide my email missing status` error when the entry has no status field,
with the distinct `Hide my email is inactive/disabled` error when the status
is not the literal `active`; and exactly when the status is `active` it
succeeds, replaces the client's service directory with the full decoded
directory, and merges the response cookies into the client's cookie set with
the merge rule. -/
theorem validate_decoded_spec (c : ICloudClient) (status : Nat) (rc : List Cookie)
    (text : String) (body : ICloudWSValidateResponse)
    (hok : (isClientError status || isServerError status) = false) :
    (body.webservices.lookup "premiummailsettings" = none →
        c.validate (ValidateInput.resp status rc text (some body))
          = (Except.error (Error.message "Missing Hide my email service"), c))
  ∧ (∀ svc, body.webservices.lookup "premiummailsettings" = some svc →
        (svc.status = none →
            c.validate (ValidateInput.resp status rc text (some body))
              = (Except.error (Error.message "Hide my email missing status"), c))
      ∧ (∀ s, svc.status = some s → s ≠ "active" →
            c.validate (ValidateInput.resp status rc text (some body))
              = (Except.error (Error.message "Hide my email is inactive/disabled"), c))
      ∧ (svc.status = some "active" →
            c.validate (ValidateInput.resp status rc text (some body))
              = (Except.ok (), { c with services := body.webservices
                                        cookies := mergeCookies c.cookies rc })))
  ∧ ((Error.message "Missing Hide my email service"
        ≠ Error.message "Hide my email missing status")
     ∧ (Error.message "Missing Hide my email service"
        ≠ Error.message "Hide my email is inactive/disabled")
     ∧ (Error.message "Hide my email missing status"
        ≠ Error.message "Hide my email is inactive/disabled")) := by
  refine ⟨?_, ?_, by decide, by decide, by decide⟩
  · intro h
    simp [ICloudClient.validate, hok, h]
  · intro svc hsvc
    refine ⟨?_, ?_, ?_⟩
    · intro h
      simp [ICloudClient.validate, hok, hsvc, h]
    · intro s hs hne
      simp [ICloudClient.validate, hok, hsvc, hs, hne]
    · intro h
      simp [ICloudClient.validate, hok, hsvc, h]

/-- Witness for C1: a concrete active directory makes `validate` succeed,
store the directory, and merge the cookies. -/
theorem validate_decoded_spec_witness :
    sampleClient.validate (ValidateInput.resp 200
        ([{ name := "a", value := "3" }] : List Cookie) "" (some sampleBody))
      = (Except.ok (), { sampleClient with
          services := sampleBody.webservices
          cookies := mergeCookies sampleClient.cookies
            ([{ name := "a", value := "3" }] : List Cookie) }) :=
  ((validate_decoded_spec sampleClient 200 ([{ name := "a", value := "3" }] : List Cookie)
      "" sampleBody (by decide)).2.1 sampleService (by decide)).2.2 (by decide)

/-- C2: on every successfully decoded claim response carrying a full record,
`claim` returns the record exactly when its `isActive` flag is true and its
`hme` field equals the requested address; in every other combination it
fails with a domain error whose message names the requested address, the
actual `isActive` value, and the actual returned address. -/
theorem claim_decoded_spec (m : HideMyEmailManager) (email label note : String)
    (server : HMEClaimPayload → HttpInput HMEResponse) (base : String)
    (status : Nat) (text : String) (body : HMEResponse) (g : HMEReserveResult)
    (hbase : m.base_url = some base)
    (hresp : server { hme := email, label := label, note := note }
        = HttpInput.resp status text (some body))
    (hok : (isServerError status || isClientError status) = false)
    (hg : body.result.hme = HMEResultType.Reserve g) :
    (g.is_active = true ∧ g.hme = email →
        m.claim email label note server = (Outcome.ok g, m))
  ∧ (¬(g.is_active = true ∧ g.hme = email) →
        m.claim email label note server
          = (Outcome.err (Error.message (claimErrorMsg email g.is_active g.hme)), m))
  ∧ (∀ e a h, ∃ s1 s2 s3, claimErrorMsg e a h
        = s1 ++ e ++ s2 ++ (if a then "true" else "false") ++ s3 ++ h) := by
  refine ⟨?_, ?_, ?_⟩
  · rintro ⟨ha, he⟩
    simp [HideMyEmailManager.claim, hbase, hresp, hok, hg, ha, he]
  · intro hn
    have hfalse : (g.is_active && (g.hme == email)) = false := by
      cases hA : g.is_active with
      | false => simp
      | true =>
        have hne : g.hme ≠ email := fun he => hn ⟨hA, he⟩
        simp [hne]
    simp [HideMyEmailManager.claim, hbase, hresp, hok, hg, hfalse]
  · intro e a h
    exact ⟨"Hide my email for ", " is inactive/invalid, Active: ", ", HME: ", rfl⟩

/-- Witness for C2: a record that echoes the wrong address makes the sample
claim fail with the message naming both addresses and the flag. -/
theorem claim_decoded_spec_witness :
    sampleManager.claim "y@icloud.com" "L" "N" claimOkServer
      = (Outcome.err (Error.message
          (claimErrorMsg "y@icloud.com" sampleReserve.is_active sampleReserve.hme)),
         sampleManager) :=
  (claim_decoded_spec sampleManager "y@icloud.com" "L" "N" claimOkServer
      "https://p42-maildomainws.icloud.com:443" 200 "" _ sampleReserve
      rfl rfl (by decide) rfl).2.1 (by decide)

/-- C5: `generate_and_claim` first generates, then claims the generated
address with the given label and note passed through unchanged (the claim
call depends on the transport only through the payload built from the
generated address and the given label and note), and returns the generated
address on success; a claim failure after a successful generate is
propagated unchanged, and a generate failure likewise. -/
theorem generate_and_claim_spec (m : HideMyEmailManager) (label note : String)
    (gi : HttpInput HMEResponse) (server : HMEClaimPayload → HttpInput HMEResponse) :
    (∀ a, (m.generate gi).1 = Outcome.ok a →
        ((∀ g, (m.claim a label note server).1 = Outcome.ok g →
            m.generate_and_claim label note gi server = (Outcome.ok a, m))
        ∧ (∀ e, (m.claim a label note server).1 = Outcome.err e →
            m.generate_and_claim label note gi server = (Outcome.err e, m))
        ∧ (∀ server2 : HMEClaimPayload → HttpInput HMEResponse,
            server { hme := a, label := label, note := note }
              = server2 { hme := a, label := label, note := note } →
            m.claim a label note server = m.claim a label note server2)))
  ∧ (∀ e, (m.generate gi).1 = Outcome.err e →
        m.generate_and_claim label note gi server = (Outcome.err e, m)) := by
  constructor
  · intro a ha
    have hgen : m.generate gi = (Outcome.ok a, m) := by
      have h2 := generate_snd m gi
      rw [Prod.ext_iff]
      exact ⟨ha, h2⟩
    refine ⟨?_, ?_, ?_⟩
    · intro g hc
      have hclaim : m.claim a label note server = (Outcome.ok g, m) := by
        have h2 := claim_snd m a label note server
        rw [Prod.ext_iff]
        exact ⟨hc, h2⟩
      simp [HideMyEmailManager.generate_and_claim, hgen, hclaim]
    · intro e hc
      have hclaim : m.claim a label note server = (Outcome.err e, m) := by
        have h2 := claim_snd m a label note server
        rw [Prod.ext_iff]
        exact ⟨hc, h2⟩
      simp [HideMyEmailManager.generate_and_claim, hgen, hclaim]
    · intro server2 hsv
      simp only [HideMyEmailManager.claim, hsv]
  · intro e he
    have hgen : m.generate gi = (Outcome.err e, m) := by
      have h2 := generate_snd m gi
      rw [Prod.ext_iff]
      exact ⟨he, h2⟩
    simp [HideMyEmailManager.generate_and_claim, hgen]

/-- Witness for C5: with a sample transport the composite returns the
generated address. -/
theorem generate_and_claim_spec_witness :
    ((sampleManager.generate genOkInput).1 = Outcome.ok "x@icloud.com")
  ∧ ((sampleManager.claim "x@icloud.com" "L" "N" claimOkServer).1
      = Outcome.ok sampleReserve)
  ∧ sampleManager.generate_and_claim "L" "N" genOkInput claimOkServer
      = (Outcome.ok "x@icloud.com", sampleManager) :=
  ⟨rfl, rfl,
   ((generate_and_claim_spec sampleManager "L" "N" genOkInput claimOkServer).1
      "x@icloud.com" rfl).1 sampleReserve rfl⟩

/-- C6: every operation — `validate`, `generate`, `claim`, `list` — turns an
HTTP response with a 4xx or 5xx status uniformly into a transport error whose
message contains the numeric status code and the raw response body; for
status 500 with body `oops` the message contains both `500` and `oops`. -/
theorem http_status_error_spec (c : ICloudClient) (m : HideMyEmailManager)
    (base : String) (status : Nat) (text : String) (rc : List Cookie)
    (dv : Option ICloudWSValidateResponse) (dg : Option HMEResponse)
    (dl : Option HMEListResponse) (email label note : String)
    (server : HMEClaimPayload → HttpInput HMEResponse)
    (hbase : m.base_url = some base)
    (hserver : server { hme := email, label := label, note := note }
        = HttpInput.resp status text dg)
    (herr : (isClientError status || isServerError status) = true) :
    (c.validate (ValidateInput.resp status rc text dv)
        = (Except.error (Error.message (statusErrorMsg status text)), c))
  ∧ (m.generate (HttpInput.resp status text dg)
        = (Outcome.err (Error.message (statusErrorMsg status text)), m))
  ∧ (m.claim email label note server
        = (Outcome.err (Error.message (statusErrorMsg status text)), m))
  ∧ (m.list (HttpInput.resp status text dl)
        = (Outcome.err (Error.message (statusErrorMsg status text)), m))
  ∧ (∀ st tx, ∃ s1 s2, statusErrorMsg st tx = s1 ++ toString st ++ s2 ++ tx)
  ∧ (∃ s1 s2, statusErrorMsg 500 "oops" = s1 ++ "500" ++ s2 ++ "oops") := by
  have herr2 : (isServerError status || isClientError status) = true := by
    rw [Bool.or_comm]
    exact herr
  refine ⟨?_, ?_, ?_, ?_, ?_, ?_⟩
  · simp [ICloudClient.validate, herr]
  · simp [HideMyEmailManager.generate, hbase, herr2]
  · simp [HideMyEmailManager.claim, hbase, hserver, herr2]
  · simp [HideMyEmailManager.list, hbase, herr2]
  · intro st tx
    exact ⟨"Failed to send request | Status: ", " | Response: ", rfl⟩
  · exact ⟨"Failed to send request | Status: ", " | Response: ", rfl⟩

/-- Witness for C6: a 500 response with body `oops` fails `generate` with the
uniform transport error message. -/
theorem http_status_error_spec_witness :
    ((isClientError 500 || isServerError 500) = true)
  ∧ sampleManager.generate (HttpInput.resp 500 "oops" none)
      = (Outcome.err (Error.message (statusErrorMsg 500 "oops")), sampleManager) :=
  ⟨rfl,
   (http_status_error_spec sampleClient sampleManager
      "https://p42-maildomainws.icloud.com:443" 500 "oops" [] none none none
      "e" "l" "n" err500Server rfl rfl rfl).2.1⟩

/-- C7: a manager built from a session whose service directory lacks the
`premiummailsettings` key is constructed without failing, and each of
`generate`, `claim` and `list` then fails with the `Missing Base URL`
error. -/
theorem missing_base_url_spec (icloud : ICloudClient)
    (h : icloud.services.lookup "premiummailsettings" = none)
    (gi : HttpInput HMEResponse) (li : HttpInput HMEListResponse)
    (server : HMEClaimPayload → HttpInput HMEResponse) (email label note : String) :
    ((HideMyEmailManager.fromClient icloud).icloud = icloud)
  ∧ ((HideMyEmailManager.fromClient icloud).base_url = none)
  ∧ ((HideMyEmailManager.fromClient icloud).generate gi
      = (Outcome.err (Error.message "Missing Base URL"),
         HideMyEmailManager.fromClient icloud))
  ∧ ((HideMyEmailManager.fromClient icloud).claim email label note server
      = (Outcome.err (Error.message "Missing Base URL"),
         HideMyEmailManager.fromClient icloud))
  ∧ ((HideMyEmailManager.fromClient icloud).list li
      = (Outcome.err (Error.message "Missing Base URL"),
         HideMyEmailManager.fromClient icloud)) := by
  have hb : (HideMyEmailManager.fromClient icloud).base_url = none := by
    simp [HideMyEmailManager.base_url, HideMyEmailManager.fromClient, h]
  refine ⟨rfl, hb, ?_, ?_, ?_⟩
  · simp [HideMyEmailManager.generate, hb]
  · simp [HideMyEmailManager.claim, hb]
  · simp [HideMyEmailManager.list, hb]

/-- Witness for C7: the manager built from a fresh unvalidated client is
constructed, and its `generate` fails with the missing-base-URL error. -/
theorem missing_base_url_spec_witness :
    ((ICloudClient.new []).services.lookup "premiummailsettings" = none)
  ∧ ((HideMyEmailManager.fromClient (ICloudClient.new [])).generate genOkInput
      = (Outcome.err (Error.message "Missing Base URL"),
         HideMyEmailManager.fromClient (ICloudClient.new []))) :=
  ⟨rfl,
   (missing_base_url_spec (ICloudClient.new []) rfl genOkInput
      (HttpInput.resp 200 "" none) claimOkServer "e" "l" "n").2.2.1⟩

/-- C8: on every successfully decoded generate response with a non-error
status, `generate` returns the plain-string address when `result.hme` has the
plain-string shape, and hits the `unreachable!()` panic — not a returned
error — when it has the full-record shape. -/
theorem generate_shape_spec (m : HideMyEmailManager) (base : String)
    (status : Nat) (text : String) (body : HMEResponse)
    (hbase : m.base_url = some base)
    (hok : (isServerError status || isClientError status) = false) :
    (∀ g, body.result.hme = HMEResultType.Generate g →
        m.generate (HttpInput.resp status text (some body)) = (Outcome.ok g, m))
  ∧ (∀ r, body.result.hme = HMEResultType.Reserve r →
        m.generate (HttpInput.resp status text (some body)) = (Outcome.panicked, m))
  ∧ (∀ e, (Outcome.panicked : Outcome String) ≠ Outcome.err e)
  ∧ (∀ a, (Outcome.panicked : Outcome String) ≠ Outcome.ok a) := by
  refine ⟨?_, ?_, fun e => by simp, fun a => by simp⟩
  · intro g hg
    simp [HideMyEmailManager.generate, hbase, hok, hg]
  · intro r hr
    simp [HideMyEmailManager.generate, hbase, hok, hr]

/-- Witness for C8: the sample generate response returns the plain-string
address. -/
theorem generate_shape_spec_witness :
    ((isServerError 200 || isClientError 200) = false)
  ∧ sampleManager.generate genOkInput = (Outcome.ok "x@icloud.com", sampleManager) :=
  ⟨rfl,
   (generate_shape_spec sampleManager "https://p42-maildomainws.icloud.com:443"
      200 "" genOkBody rfl rfl).1 "x@icloud.com" rfl⟩

end HideMyEmail
